import Mathlib

/-!
Verification development for the testmed-ai retrieval and citation engine.

Each Python module relevant to the checked claims is shallowly embedded as
executable Lean definitions:

* `HybridSearch` embeds `src/rag/hybrid_search.py` (`_combine_results`);
* `CitationManager` embeds `src/rag/citation_manager.py`
  (`format_citations`, `calculate_confidence_score`);
* `MedicalDatabase` embeds `src/processing/database.py` (`add_entry` over the
  `url TEXT UNIQUE` table with `INSERT OR REPLACE`);
* `DataCleaner` embeds `src/processing/data_cleaner.py`
  (`_clean_text`, `_clean_list`, `deduplicate_data`);
* `EnhancedRAGPipeline` embeds `src/rag/enhanced_rag_pipeline.py`
  (`_extract_condition_from_query`, `_generate_general_response`).

Python floats are modelled as rationals (every constant in the code is a
short decimal, exactly representable); Python strings as Lean strings with
ASCII case folding; Python dicts as records, with `Option` for keys the code
may find absent.
-/

set_option allowUnsafeReducibility true in
attribute [semireducible] Rat.sub Rat.mul Rat.ofScientific Rat.add Rat.inv

/-- Python `str.lower()` on one character, ASCII fragment. -/
def pyLowerChar (c : Char) : Char :=
  if 'A' ≤ c ∧ c ≤ 'Z' then Char.ofNat (c.toNat + 32) else c

/-- Python `str.lower()`, ASCII fragment. -/
def pyToLower (s : String) : String :=
  String.mk (s.toList.map pyLowerChar)

namespace HybridSearch

/-- One search-result dict as it flows through `HybridSearch._combine_results`.
`url` is the record locator (top-level for structured rows, inside `metadata`
for semantic hits), `retrievedAt` the ingestion timestamp (`date_added`)
carried by the dict, `distance` the semantic distance key (absent on
structured rows).  `_combine_results` writes `searchType` and
`relevanceScore` into the dict; they start unset. -/
structure SearchResult where
  url : String
  retrievedAt : Int
  distance : Option ℚ
  searchType : String := ""
  relevanceScore : ℚ := 0
  deriving DecidableEq, Repr

/-- First loop of `_combine_results`: `result['search_type'] = 'structured';
result['relevance_score'] = 0.8`. -/
def tagStructured (r : SearchResult) : SearchResult :=
  { r with searchType := "structured", relevanceScore := 4/5 }

/-- Second loop of `_combine_results`: `result['search_type'] = 'semantic';
result['relevance_score'] = 1.0 - result.get('distance', 0.5)`. -/
def tagSemantic (r : SearchResult) : SearchResult :=
  { r with searchType := "semantic", relevanceScore := 1 - r.distance.getD (1/2) }

/-- The concatenated, tagged list built by the two loops of
`_combine_results` before the final sort. -/
def combinedTagged (structured semantic : List SearchResult) : List SearchResult :=
  structured.map tagStructured ++ semantic.map tagSemantic

/-- Comparison used to model `combined.sort(key=lambda x:
x.get('relevance_score', 0), reverse=True)`.  Python's sort is stable, so the
result is exactly the list ordered by (relevance descending, original
position ascending); we sort the position-decorated list by this total
order. -/
def sortKey (a b : Nat × SearchResult) : Prop :=
  b.2.relevanceScore < a.2.relevanceScore ∨
    (a.2.relevanceScore = b.2.relevanceScore ∧ a.1 ≤ b.1)

instance : DecidableRel sortKey := fun a b => by
  unfold sortKey; infer_instance

instance : IsTotal (Nat × SearchResult) sortKey := by
  constructor
  intro a b
  rcases lt_trichotomy a.2.relevanceScore b.2.relevanceScore with h | h | h
  · exact Or.inr (Or.inl h)
  · rcases Nat.le_total a.1 b.1 with hn | hn
    · exact Or.inl (Or.inr ⟨h, hn⟩)
    · exact Or.inr (Or.inr ⟨h.symm, hn⟩)
  · exact Or.inl (Or.inl h)

instance : IsTrans (Nat × SearchResult) sortKey := by
  constructor
  rintro a b c (hab | ⟨hab, hab'⟩) (hbc | ⟨hbc, hbc'⟩)
  · exact Or.inl (hbc.trans hab)
  · exact Or.inl (hbc ▸ hab)
  · exact Or.inl (hab.symm ▸ hbc)
  · exact Or.inr ⟨hab.trans hbc, hab'.trans hbc'⟩

/-- Model of `HybridSearch._combine_results`: tag structured hits with baseline
relevance 0.8, semantic hits with `1 - distance` (distance defaulting to
0.5), then stable-sort the concatenation by relevance descending. -/
def combine_results (structured semantic : List SearchResult) : List SearchResult :=
  (((combinedTagged structured semantic).enum).insertionSort sortKey).map (·.2)

/-- The output ordering the spec claims (for comparison with the code):
relevance descending, ties broken by `retrievedAt` descending, then by `url`
ascending. -/
abbrev specClaimedOrder (l : List SearchResult) : Prop :=
  List.Pairwise (fun a b =>
    b.relevanceScore < a.relevanceScore ∨
      (a.relevanceScore = b.relevanceScore ∧
        (b.retrievedAt < a.retrievedAt ∨
          (a.retrievedAt = b.retrievedAt ∧ ¬ b.url < a.url)))) l

end HybridSearch

namespace CitationManager

/-- One source dict as consumed by `CitationManager.format_citations` /
`calculate_confidence_score`.  Keys the Python code reads with `source[k]`
or `source.get(k, d)` are modelled as `Option` fields (`none` = key absent);
`relevance_score` is always written by `extract_sources_from_documents`, so
it is a plain field. -/
structure Source where
  title : Option String := none
  organization : Option String := none
  year : Option String := none
  url : Option String := none
  type : Option String := none
  author : Option String := none
  journal : Option String := none
  volume : Option String := none
  issue : Option String := none
  pages : Option String := none
  relevance_score : ℚ := 0
  deriving DecidableEq, Repr

/-- The body of the `for` loop of `format_citations`: select the template by
`source["type"]` (defaulting to the `"default"` template) and substitute the
fields, `source.get(k, d)` lookups falling back without error.  A `source[k]`
lookup of a missing key raises `KeyError(k)`, modelled as `Except.error k`;
lookups happen in Python evaluation order: `type`, then `organization`
(eagerly evaluated as the fallback for `author`), then `year`, then
`title`. -/
def format_citation (s : Source) : Except String String :=
  match s.type with
  | none => Except.error "type"
  | some t =>
    match s.organization with
    | none => Except.error "organization"
    | some org =>
      match s.year with
      | none => Except.error "year"
      | some year =>
        match s.title with
        | none => Except.error "title"
        | some title =>
          let author := s.author.getD org
          let journal := s.journal.getD ""
          let volume := s.volume.getD ""
          let issue := s.issue.getD ""
          let pages := s.pages.getD ""
          let url := s.url.getD ""
          if t = "medical_journal" then
            Except.ok (author ++ ". (" ++ year ++ "). " ++ title ++ ". " ++ journal ++ ", "
              ++ volume ++ "(" ++ issue ++ "), " ++ pages ++ ".")
          else if t = "website" then
            Except.ok (org ++ ". (" ++ year ++ "). " ++ title ++ ". Retrieved from " ++ url)
          else if t = "organization" then
            Except.ok (org ++ ". (" ++ year ++ "). " ++ title ++ ".")
          else
            Except.ok (org ++ ". (" ++ year ++ "). " ++ title ++ ".")

/-- Accumulating loop over fallible element formatting: collect results in
order, the first raised error aborting the whole call. -/
def mapExcept (f : α → Except ε β) : List α → Except ε (List β)
  | [] => Except.ok []
  | x :: xs =>
    match f x with
    | Except.error e => Except.error e
    | Except.ok y =>
      match mapExcept f xs with
      | Except.error e => Except.error e
      | Except.ok ys => Except.ok (y :: ys)

/-- Model of `CitationManager.format_citations`: format the first `max_citations`
sources; a `KeyError` raised inside the loop aborts the whole call. -/
def format_citations (sources : List Source) (max_citations : Nat := 3) :
    Except String (List String) :=
  mapExcept format_citation (sources.take max_citations)

/-- Model of `CitationManager.calculate_confidence_score`. -/
def calculate_confidence_score (sources : List Source) (response_length : Int) : ℚ :=
  if sources.isEmpty then 0.3
  else
    let avg_source_score := (sources.map (·.relevance_score)).sum / (sources.length : ℚ)
    let source_bonus := min ((sources.length : ℚ) * 0.1) 0.3
    let length_bonus := min ((response_length : ℚ) / 1000 * 0.1) 0.2
    min (avg_source_score + source_bonus + length_bonus) 1

/-- The confidence formula as the spec words it (for comparison with the
code): the source-count bonus counts *distinct* sources, and the result is
claimed to lie in [0, 1]. -/
def claimedConfidence (sources : List Source) (response_length : Int) : ℚ :=
  if sources.isEmpty then 0.3
  else
    min ((sources.map (·.relevance_score)).sum / (sources.length : ℚ)
      + min ((sources.dedup.length : ℚ) * 0.1) 0.3
      + min ((response_length : ℚ) / 1000 * 0.1) 0.2) 1

end CitationManager

namespace MedicalDatabase

/-- The values bound by `add_entry`'s `INSERT OR REPLACE` statement (the
`data.get(k, default)` of each column; list-valued facet columns are stored
as JSON-encoded strings). -/
structure EntryData where
  condition : String := ""
  title : String := ""
  symptoms : String := "[]"
  causes : String := "[]"
  treatments : String := "[]"
  drugs : String := "[]"
  side_effects : String := "[]"
  content : String := ""
  source : String := ""
  source_type : String := ""
  url : String := ""
  confidence_score : ℚ := 0
  deriving DecidableEq, Repr

/-- One row of the `medical_entries` table (`id INTEGER PRIMARY KEY
AUTOINCREMENT`). -/
structure MedicalRow where
  id : Nat
  data : EntryData
  deriving DecidableEq, Repr

/-- The `medical_entries` table: rows in rowid order plus the autoincrement
counter. -/
structure DBState where
  rows : List MedicalRow := []
  nextId : Nat := 1
  deriving DecidableEq, Repr

/-- Model of `MedicalDatabase.add_entry`: `INSERT OR REPLACE` against the
`url TEXT UNIQUE` constraint deletes any existing row with the same `url`
and inserts a fresh row with a fresh autoincrement rowid; returns the new
state and `cursor.lastrowid`. -/
def add_entry (st : DBState) (d : EntryData) : DBState × Nat :=
  let kept := st.rows.filter (fun r => r.data.url != d.url)
  ({ rows := kept ++ [⟨st.nextId, d⟩], nextId := st.nextId + 1 }, st.nextId)

end MedicalDatabase

namespace DataCleaner

/-- Python whitespace (`str.strip()` / regex `\s`), ASCII fragment:
space, tab, newline, carriage return, vertical tab, form feed. -/
def pyIsSpace (c : Char) : Bool :=
  c == ' ' || c == '\t' || c == '\n' || c == '\r' || c == '\x0b' || c == '\x0c'

/-- Python `text.strip()`: drop leading and trailing whitespace. -/
def stripChars (l : List Char) : List Char :=
  ((l.dropWhile pyIsSpace).reverse.dropWhile pyIsSpace).reverse

/-- Python `re.sub(r'\s+', ' ', text)`: replace every maximal whitespace run by a
single space (a whitespace char is dropped when the next char is also
whitespace, else emitted as `' '`). -/
def collapseWS : List Char → List Char
  | [] => []
  | [c] => if pyIsSpace c then [' '] else [c]
  | c :: d :: cs =>
    if pyIsSpace c && pyIsSpace d then collapseWS (d :: cs)
    else (if pyIsSpace c then ' ' else c) :: collapseWS (d :: cs)

/-- Index of the first occurrence of `close`, scanning no further than the
end of the current line (regex `.` does not match a newline). -/
def findCloseIdx (close : Char) : List Char → Option Nat
  | [] => none
  | c :: cs =>
    if c = close then some 0
    else if c = '\n' then none
    else (findCloseIdx close cs).map (· + 1)

/-- One `re.sub(pat, '', text)` pass for a lazy delimited pattern such as
`\[.*?\]`, `\(.*?\)` or `<.*?>`: each leftmost-shortest delimited span is
deleted; an opener with no closer on its line is kept verbatim.  The `fuel`
argument (instantiated with the list length, which every recursive call
strictly decreases) only makes the recursion structural. -/
def removeDelimFuel (opn close : Char) : Nat → List Char → List Char
  | _, [] => []
  | 0, l => l
  | fuel + 1, c :: cs =>
    if c = opn then
      match findCloseIdx close cs with
      | some n => removeDelimFuel opn close fuel (cs.drop (n + 1))
      | none => c :: removeDelimFuel opn close fuel cs
    else c :: removeDelimFuel opn close fuel cs

def removeDelim (opn close : Char) (l : List Char) : List Char :=
  removeDelimFuel opn close l.length l

/-- Length of the scheme part of regex `http[s]?://` at the head of the
list, if it matches there. -/
def schemeLen : List Char → Option Nat
  | 'h' :: 't' :: 't' :: 'p' :: 's' :: ':' :: '/' :: '/' :: _ => some 8
  | 'h' :: 't' :: 't' :: 'p' :: ':' :: '/' :: '/' :: _ => some 7
  | _ => none

/-- Python `re.sub(r'http[s]?://\S+', '', text)`: delete every leftmost match of a
scheme followed by at least one non-whitespace character (greedy `\S+`).
`fuel` (instantiated with the list length) only makes the recursion
structural. -/
def removeUrlsFuel : Nat → List Char → List Char
  | _, [] => []
  | 0, l => l
  | fuel + 1, c :: cs =>
    match schemeLen (c :: cs) with
    | some k =>
      let bodyLen := (((c :: cs).drop k).takeWhile (fun d => !pyIsSpace d)).length
      if bodyLen = 0 then c :: removeUrlsFuel fuel cs
      else removeUrlsFuel fuel ((c :: cs).drop (k + bodyLen))
    | none => c :: removeUrlsFuel fuel cs

def removeUrls (l : List Char) : List Char :=
  removeUrlsFuel l.length l

/-- Model of `DataCleaner._clean_text`: strip and collapse whitespace, then delete
bracketed spans, parenthesised spans, angle-bracketed spans and URLs, then
strip again.  `if not text: return ""` is the empty-string guard. -/
def clean_text (s : String) : String :=
  if s = "" then ""
  else
    let t1 := collapseWS (stripChars s.toList)
    let t2 := removeDelim '[' ']' t1
    let t3 := removeDelim '(' ')' t2
    let t4 := removeDelim '<' '>' t3
    let t5 := removeUrls t4
    String.mk (stripChars t5)

/-- The dedup loop of `_clean_list`: keep an item iff its lower-cased form
has not been seen; `seen` accumulates lower-cased forms. -/
def dedupLowerAux (seen : List String) : List String → List String
  | [] => []
  | x :: xs =>
    if pyToLower x ∈ seen then dedupLowerAux seen xs
    else x :: dedupLowerAux (pyToLower x :: seen) xs

/-- Model of `DataCleaner._clean_list`: clean each string item, keep the non-empty
ones longer than 3 characters, then deduplicate case-insensitively
preserving first-seen order. -/
def clean_list (items : List String) : List String :=
  let cleaned_items := (items.map clean_text).filter
    (fun s => !(s == "") && decide (3 < s.length))
  dedupLowerAux [] cleaned_items

/-- One raw record as consumed by `DataCleaner.deduplicate_data`: Python
reads only `data.get('url', '')` (a missing `url` key is modelled as `""`);
`retrievedAt` and `content` stand for the rest of the dict. -/
structure RawRecord where
  url : String := ""
  retrievedAt : Int := 0
  content : String := ""
  deriving DecidableEq, Repr

/-- The loop of `deduplicate_data`: keep a record iff its `url` is truthy
(non-empty) and not seen before. -/
def dedupDataAux (seen : List String) : List RawRecord → List RawRecord
  | [] => []
  | d :: ds =>
    if d.url ≠ "" ∧ d.url ∉ seen then d :: dedupDataAux (d.url :: seen) ds
    else dedupDataAux seen ds

/-- Model of `DataCleaner.deduplicate_data`. -/
def deduplicate_data (data_list : List RawRecord) : List RawRecord :=
  dedupDataAux [] data_list

end DataCleaner

namespace EnhancedRAGPipeline

/-- The fixed keyword list of `_extract_condition_from_query`. -/
def conditionKeywords : List String :=
  ["diabetes", "hypertension", "asthma", "depression", "cancer",
   "heart disease", "migraine", "arthritis", "allergies", "anxiety"]

/-- Tests that `pat` matches at the head of `l`. -/
def startsWithList : List Char → List Char → Bool
  | [], _ => true
  | _ :: _, [] => false
  | p :: ps, c :: cs => p == c && startsWithList ps cs

/-- Python's `pat in s` substring test, on char lists. -/
def occursIn (pat : List Char) : List Char → Bool
  | [] => startsWithList pat []
  | c :: cs => startsWithList pat (c :: cs) || occursIn pat cs

/-- Python's `pat in hay` substring test on strings. -/
def strContains (hay pat : String) : Bool :=
  occursIn pat.toList hay.toList

/-- Model of `EnhancedRAGPipeline._extract_condition_from_query`: first condition
keyword occurring in the lower-cased query, else `None`. -/
def extract_condition_from_query (query : String) : Option String :=
  conditionKeywords.find? (fun c => strContains (pyToLower query) c)

/-- The response dict produced by the pipeline. -/
structure ResponseDict where
  answer : String
  sources : List String
  confidence : ℚ
  evidence_type : String
  community_insights : Bool
  deriving DecidableEq, Repr

/-- Model of `EnhancedRAGPipeline._generate_general_response`. -/
def generate_general_response (query : String) : ResponseDict where
  answer := "I understand you\x27re asking about: " ++ query
    ++ ". For specific medical information, please mention the condition you\x27re interested in (e.g., diabetes, hypertension, asthma). I can provide evidence-based information combined with community insights."
  sources := ["TrustMed AI General Response"]
  confidence := 0.5
  evidence_type := "general"
  community_insights := false

/-- Python truthiness of the optional `condition` argument: `None` and `""`
are falsy. -/
def pyFalsyStr : Option String → Bool
  | none => true
  | some s => s == ""

/-- Model of `EnhancedRAGPipeline.generate_enhanced_response`, parameterised by
`blend`: the evidence-fetching-and-blending remainder of the method (live
ingestion, community pipeline and `_blend_evidence_and_community`), which
performs network calls and is outside the branch under check.  The
condition-extraction and the topic-not-recognized short-circuit are the
code's. -/
def generate_enhanced_response (blend : String → ResponseDict)
    (query : String) (condition : Option String) : ResponseDict :=
  let cond := if pyFalsyStr condition then extract_condition_from_query query else condition
  if pyFalsyStr cond then generate_general_response query
  else blend (cond.getD "")

end EnhancedRAGPipeline

namespace HybridSearch

theorem combine_results_perm (ss ts : List SearchResult) :
    (combine_results ss ts).Perm (combinedTagged ss ts) := by
  have h := (List.perm_insertionSort sortKey ((combinedTagged ss ts).enum)).map Prod.snd
  simpa [combine_results, List.enum_map_snd] using h

theorem sortKey_relevance {a b : Nat × SearchResult} (h : sortKey a b) :
    b.2.relevanceScore ≤ a.2.relevanceScore := by
  rcases h with h | ⟨h, _⟩
  · exact h.le
  · exact h.symm.le

theorem combine_results_pairwise (ss ts : List SearchResult) :
    List.Pairwise (fun a b => b.relevanceScore ≤ a.relevanceScore)
      (combine_results ss ts) := by
  have h := List.sorted_insertionSort sortKey ((combinedTagged ss ts).enum)
  unfold combine_results
  rw [List.pairwise_map]
  exact h.imp sortKey_relevance

theorem mem_combine_results {r : SearchResult} {ss ts : List SearchResult}
    (h : r ∈ combine_results ss ts) :
    (∃ x ∈ ss, r = tagStructured x) ∨ ∃ x ∈ ts, r = tagSemantic x := by
  have hm := (combine_results_perm ss ts).mem_iff.mp h
  rcases List.mem_append.mp hm with hm | hm
  · obtain ⟨x, hx, hr⟩ := List.mem_map.mp hm
    exact Or.inl ⟨x, hx, hr.symm⟩
  · obtain ⟨x, hx, hr⟩ := List.mem_map.mp hm
    exact Or.inr ⟨x, hx, hr.symm⟩

end HybridSearch

namespace HybridSearch

/-- C1 counterexample: a url present in both hit lists does NOT yield one
merged record.  With a structured hit and a semantic hit (distance 0.3) for
the same url, `_combine_results` returns two records for that url, with
relevances 0.8 and 0.7 kept separately, and no record ever has origin
"both". -/
theorem combine_results_shared_url_not_merged :
    (let out := combine_results
        [{ url := "https://example.com/diabetes", retrievedAt := 1, distance := none }]
        [{ url := "https://example.com/diabetes", retrievedAt := 2,
           distance := some (Rat.divInt 3 10) }]
     out.countP (fun r => r.url == "https://example.com/diabetes") = 2
     ∧ out.map (fun r => r.relevanceScore) = [Rat.divInt 4 5, Rat.divInt 7 10]
     ∧ out.all (fun r => r.searchType != "both") = true) := by
  decide

/-- C1 (amended): `_combine_results` performs no merge at all.  For every
pair of hit lists and every url, the number of output records with that url
is the sum of the counts in the two inputs (a url in both lists yields two
records, never one), and every output record's origin is "structured" or
"semantic" — origin "both" and relevance `max` never occur. -/
theorem combine_results_no_url_merge (ss ts : List SearchResult) (u : String) :
    (combine_results ss ts).countP (fun r => r.url == u)
      = ss.countP (fun r => r.url == u) + ts.countP (fun r => r.url == u)
  ∧ (combine_results ss ts).all
      (fun r => r.searchType == "structured" || r.searchType == "semantic") = true := by
  constructor
  · rw [List.Perm.countP_eq _ (combine_results_perm ss ts)]
    unfold combinedTagged
    rw [List.countP_append, List.countP_map, List.countP_map]
    rfl
  · rw [List.all_eq_true]
    intro r hr
    rcases mem_combine_results hr with ⟨x, _, hx⟩ | ⟨x, _, hx⟩ <;> subst hx <;>
      simp [tagStructured, tagSemantic]

/-- C4 counterexample: the claimed tie-break (retrievedAt descending, then
url ascending) does not hold.  Two structured hits tie at relevance 0.8;
the code's stable sort keeps input order, putting the older, url-larger
record first. -/
theorem combine_results_claimed_order_fails :
    ¬ specClaimedOrder (combine_results
      [{ url := "b", retrievedAt := 1, distance := none },
       { url := "a", retrievedAt := 2, distance := none }] []) := by
  decide

/-- C4 (amended): the merged list is sorted by non-increasing relevance and
is a permutation of the tagged concatenation; at equal relevance the stable
sort keeps the original (structured-then-semantic, input-order) positions —
there is no retrievedAt or url tie-break.  The output is a pure function of
the two input lists, hence deterministic. -/
theorem combine_results_order (ss ts : List SearchResult) :
    List.Pairwise (fun a b => b.relevanceScore ≤ a.relevanceScore) (combine_results ss ts)
  ∧ (combine_results ss ts).Perm (combinedTagged ss ts)
  ∧ List.Pairwise (fun a b => a.2.relevanceScore = b.2.relevanceScore → a.1 ≤ b.1)
      (((combinedTagged ss ts).enum).insertionSort sortKey) := by
  refine ⟨combine_results_pairwise ss ts, combine_results_perm ss ts, ?_⟩
  have h := List.sorted_insertionSort sortKey ((combinedTagged ss ts).enum)
  refine h.imp fun hab heq => ?_
  rcases hab with h' | ⟨h', hi⟩
  · exact absurd (heq ▸ h') (lt_irrefl _)
  · exact hi

/-- C5 counterexample: semantic distances outside [0, 1] are NOT clamped: a
semantic hit with distance 2 is assigned relevance 1 - 2 = -1, outside
[0, 1]. -/
theorem combine_results_distance_not_clamped :
    (let out := combine_results [] [{ url := "u", retrievedAt := 0, distance := some 2 }]
     out.map (fun r => r.relevanceScore) = [-1]
     ∧ out.all (fun r => decide (r.relevanceScore < 0)) = true) := by
  decide

/-- C5 (amended): structured hits get the fixed baseline relevance 0.8 and
semantic hits get `1 - distance` with the distance defaulting to 0.5 when
the key is absent; no clamping is applied, so all assigned relevances lie in
[0, 1] only under the assumption that every (defaulted) semantic distance
lies in [0, 1]. -/
theorem combine_results_relevance_scores (ss ts : List SearchResult) :
    (∀ r : SearchResult, (tagStructured r).relevanceScore = 4/5
      ∧ (tagSemantic r).relevanceScore = 1 - r.distance.getD (1/2))
  ∧ ((∀ t ∈ ts, 0 ≤ t.distance.getD ((1:ℚ)/2) ∧ t.distance.getD ((1:ℚ)/2) ≤ 1) →
      ∀ r ∈ combine_results ss ts, 0 ≤ r.relevanceScore ∧ r.relevanceScore ≤ 1) := by
  constructor
  · intro r
    exact ⟨rfl, rfl⟩
  · intro h r hr
    rcases mem_combine_results hr with ⟨x, _, hx⟩ | ⟨x, hx, hxr⟩
    · subst hx
      constructor <;> norm_num [tagStructured]
    · subst hxr
      obtain ⟨h0, h1⟩ := h x hx
      constructor
      · simpa [tagSemantic] using by linarith
      · simpa [tagSemantic] using by linarith

/-- C5 witness: the amended theorem applied to one structured hit and one
semantic hit with distance 0.3. -/
theorem combine_results_relevance_scores_witness :
    0 ≤ (tagSemantic { url := "b", retrievedAt := 0, distance := some (Rat.divInt 3 10) }).relevanceScore
    ∧ (tagSemantic { url := "b", retrievedAt := 0, distance := some (Rat.divInt 3 10) }).relevanceScore ≤ 1 :=
  (combine_results_relevance_scores
      [{ url := "a", retrievedAt := 0, distance := none }]
      [{ url := "b", retrievedAt := 0, distance := some (Rat.divInt 3 10) }]).2
    (by decide)
    (tagSemantic { url := "b", retrievedAt := 0, distance := some (Rat.divInt 3 10) })
    (by decide)

end HybridSearch

namespace MedicalDatabase

/-- C3: ingestion into the structured index is idempotent and keyed by url.
`INSERT OR REPLACE` against the `url TEXT UNIQUE` constraint makes a second
`add_entry` of the same record replace, never duplicate: after any add the
table holds exactly one row with that url, and adding the same record again
leaves the row count unchanged. -/
theorem add_entry_idempotent_by_url (st : DBState) (d : EntryData) :
    (add_entry st d).1.rows.countP (fun r => r.data.url == d.url) = 1
  ∧ (add_entry (add_entry st d).1 d).1.rows.countP (fun r => r.data.url == d.url) = 1
  ∧ (add_entry (add_entry st d).1 d).1.rows.length = (add_entry st d).1.rows.length := by
  have hfil : ∀ rows : List MedicalRow,
      (rows.filter (fun r => r.data.url != d.url)).countP (fun r => r.data.url == d.url) = 0 := by
    intro rows
    rw [List.countP_eq_zero]
    intro a ha
    have h2 := (List.mem_filter.mp ha).2
    simpa using h2
  have hself : ∀ rows : List MedicalRow,
      (rows.filter (fun r => r.data.url != d.url)).filter (fun r => r.data.url != d.url)
        = rows.filter (fun r => r.data.url != d.url) :=
    fun rows => List.filter_eq_self.mpr (fun a ha => (List.mem_filter.mp ha).2)
  refine ⟨?_, ?_, ?_⟩
  · simp [add_entry, List.countP_append, hfil]
  · simp [add_entry, List.countP_append, hfil]
  · simp [add_entry, List.filter_append, hself, List.length_append]

end MedicalDatabase

namespace DataCleaner

theorem dedupLowerAux_sublist (seen l : List String) :
    List.Sublist (dedupLowerAux seen l) l := by
  induction l generalizing seen with
  | nil => simp [dedupLowerAux]
  | cons x xs ih =>
    rw [dedupLowerAux]
    by_cases hc : pyToLower x ∈ seen
    · rw [if_pos hc]
      exact (ih seen).cons x
    · rw [if_neg hc]
      exact (ih _).cons₂ x

theorem mem_dedupLowerAux {x : String} {seen l : List String}
    (h : x ∈ dedupLowerAux seen l) : pyToLower x ∉ seen := by
  induction l generalizing seen with
  | nil => simp [dedupLowerAux] at h
  | cons y ys ih =>
    by_cases hc : pyToLower y ∈ seen
    · rw [dedupLowerAux, if_pos hc] at h
      exact ih h
    · rw [dedupLowerAux, if_neg hc] at h
      rcases List.mem_cons.mp h with rfl | h2
      · exact hc
      · intro hm
        exact (ih h2) (List.mem_cons_of_mem _ hm)

theorem pairwise_dedupLowerAux (seen l : List String) :
    List.Pairwise (fun a b => pyToLower a ≠ pyToLower b) (dedupLowerAux seen l) := by
  induction l generalizing seen with
  | nil => simp [dedupLowerAux]
  | cons y ys ih =>
    by_cases hc : pyToLower y ∈ seen
    · rw [dedupLowerAux, if_pos hc]
      exact ih seen
    · rw [dedupLowerAux, if_neg hc]
      refine List.Pairwise.cons ?_ (ih _)
      intro b hb heq
      exact (mem_dedupLowerAux hb) (by rw [← heq]; exact List.mem_cons_self _ _)

/-- C6: `_clean_list` keeps only cleaned entries longer than 3 characters
(that is, it drops entries shorter than 4 characters), removes
case-insensitive duplicates, and preserves first-seen order (the output is a
sublist of the cleaned-and-filtered input); the case-variant pair
"Thirst" / "thirst " collapses to exactly one entry. -/
theorem clean_list_spec (items : List String) :
    (∀ s ∈ clean_list items, 3 < s.length)
  ∧ List.Pairwise (fun a b => pyToLower a ≠ pyToLower b) (clean_list items)
  ∧ List.Sublist (clean_list items)
      ((items.map clean_text).filter (fun s => !(s == "") && decide (3 < s.length)))
  ∧ clean_list ["Thirst", "thirst "] = ["Thirst"] := by
  refine ⟨?_, pairwise_dedupLowerAux _ _, dedupLowerAux_sublist _ _, by decide⟩
  intro s hs
  have hmem : s ∈ (items.map clean_text).filter
      (fun s => !(s == "") && decide (3 < s.length)) :=
    (dedupLowerAux_sublist _ _).subset hs
  have hp := (List.mem_filter.mp hmem).2
  simp only [Bool.and_eq_true, decide_eq_true_eq] at hp
  exact hp.2

/-- C6 witness: the theorem applied to the concrete case-variant list. -/
theorem clean_list_spec_witness :
    3 < "Thirst".length ∧ clean_list ["Thirst", "thirst "] = ["Thirst"] :=
  ⟨(clean_list_spec ["Thirst", "thirst "]).1 "Thirst" (by decide),
   (clean_list_spec ["Thirst", "thirst "]).2.2.2⟩

theorem dedupDataAux_sublist (seen : List String) (l : List RawRecord) :
    List.Sublist (dedupDataAux seen l) l := by
  induction l generalizing seen with
  | nil => simp [dedupDataAux]
  | cons d ds ih =>
    rw [dedupDataAux]
    by_cases hc : d.url ≠ "" ∧ d.url ∉ seen
    · rw [if_pos hc]
      exact (ih _).cons₂ d
    · rw [if_neg hc]
      exact (ih seen).cons d

theorem mem_dedupDataAux {r : RawRecord} {seen : List String} {l : List RawRecord}
    (h : r ∈ dedupDataAux seen l) : r.url ≠ "" ∧ r.url ∉ seen := by
  induction l generalizing seen with
  | nil => simp [dedupDataAux] at h
  | cons d ds ih =>
    by_cases hc : d.url ≠ "" ∧ d.url ∉ seen
    · rw [dedupDataAux, if_pos hc] at h
      rcases List.mem_cons.mp h with rfl | h2
      · exact hc
      · have h3 := ih h2
        exact ⟨h3.1, fun hm => h3.2 (List.mem_cons_of_mem _ hm)⟩
    · rw [dedupDataAux, if_neg hc] at h
      exact ih h

theorem pairwise_dedupDataAux (seen : List String) (l : List RawRecord) :
    List.Pairwise (fun a b => a.url ≠ b.url) (dedupDataAux seen l) := by
  induction l generalizing seen with
  | nil => simp [dedupDataAux]
  | cons d ds ih =>
    by_cases hc : d.url ≠ "" ∧ d.url ∉ seen
    · rw [dedupDataAux, if_pos hc]
      refine List.Pairwise.cons ?_ (ih _)
      intro b hb heq
      exact (mem_dedupDataAux hb).2 (by rw [← heq]; exact List.mem_cons_self _ _)
    · rw [dedupDataAux, if_neg hc]
      exact ih seen

theorem dedupDataAux_covers {seen : List String} {l : List RawRecord} :
    ∀ r ∈ l, r.url ≠ "" → r.url ∉ seen →
      ∃ r' ∈ dedupDataAux seen l, r'.url = r.url := by
  induction l generalizing seen with
  | nil => intro r hr; simp at hr
  | cons d ds ih =>
    intro r hr hne hns
    by_cases hc : d.url ≠ "" ∧ d.url ∉ seen
    · rw [dedupDataAux, if_pos hc]
      rcases List.mem_cons.mp hr with rfl | h2
      · exact ⟨r, List.mem_cons_self _ _, rfl⟩
      · by_cases hu : r.url = d.url
        · exact ⟨d, List.mem_cons_self _ _, hu.symm⟩
        · obtain ⟨r', hr', hurl⟩ := ih r h2 hne (by
            intro hm
            rcases List.mem_cons.mp hm with h | h
            · exact hu h
            · exact hns h)
          exact ⟨r', List.mem_cons_of_mem _ hr', hurl⟩
    · rw [dedupDataAux, if_neg hc]
      rcases List.mem_cons.mp hr with rfl | h2
      · exact absurd ⟨hne, hns⟩ hc
      · exact ih r h2 hne hns

theorem dedupDataAux_first {seen : List String} {l : List RawRecord} :
    ∀ r' ∈ dedupDataAux seen l, l.find? (fun x => x.url == r'.url) = some r' := by
  induction l generalizing seen with
  | nil => intro r' hr'; simp [dedupDataAux] at hr'
  | cons d ds ih =>
    intro r' hr'
    by_cases hc : d.url ≠ "" ∧ d.url ∉ seen
    · rw [dedupDataAux, if_pos hc] at hr'
      rcases List.mem_cons.mp hr' with rfl | h2
      · rw [List.find?_cons_of_pos _ (by simp)]
      · have hno := (mem_dedupDataAux h2).2
        have hne : d.url ≠ r'.url := by
          intro heq
          exact hno (by rw [← heq]; exact List.mem_cons_self _ _)
        rw [List.find?_cons_of_neg _ (by simpa using hne)]
        exact ih r' h2
    · rw [dedupDataAux, if_neg hc] at hr'
      have h3 := mem_dedupDataAux hr'
      have hne : d.url ≠ r'.url := by
        rcases not_and_or.mp hc with h | h
        · intro heq
          exact h3.1 (by rw [← heq, not_not.mp h])
        · intro heq
          exact h3.2 (by rw [← heq]; exact not_not.mp h)
      rw [List.find?_cons_of_neg _ (by simpa using hne)]
      exact ih r' hr'

end DataCleaner

namespace DataCleaner

/-- C7 counterexample: `deduplicate_data` does NOT keep the
most-recently-retrieved record of a url group.  With two records sharing a
url where the second is fresher, the code keeps the first (older) one. -/
theorem deduplicate_data_not_most_recent :
    (let r1 : RawRecord := { url := "u", retrievedAt := 1, content := "old" }
     let r2 : RawRecord := { url := "u", retrievedAt := 2, content := "new" }
     deduplicate_data [r1, r2] = [r1]
     ∧ r1.retrievedAt < r2.retrievedAt
     ∧ deduplicate_data [r1, r2] ≠ [r2]) := by
  decide

/-- C7 (amended): `deduplicate_data` removes records sharing a url keeping
the FIRST-listed one of each url group (not the most recent), preserves the
input order of survivors (output is a sublist of the input), and represents
every non-empty url of the input: each survivor is exactly the first input
record carrying its url. -/
theorem deduplicate_data_keeps_first (l : List RawRecord) :
    List.Sublist (deduplicate_data l) l
  ∧ List.Pairwise (fun a b => a.url ≠ b.url) (deduplicate_data l)
  ∧ (∀ r ∈ l, r.url ≠ "" → ∃ r' ∈ deduplicate_data l, r'.url = r.url)
  ∧ (∀ r' ∈ deduplicate_data l, l.find? (fun x => x.url == r'.url) = some r') := by
  refine ⟨dedupDataAux_sublist [] l, pairwise_dedupDataAux [] l, ?_, ?_⟩
  · intro r hr hne
    exact dedupDataAux_covers r hr hne (by simp)
  · intro r' hr'
    exact dedupDataAux_first r' hr'

/-- C7 witness: the amended theorem applied to the two-record url group. -/
theorem deduplicate_data_keeps_first_witness :
    List.find?
      (fun x : RawRecord => x.url == ({ url := "u", retrievedAt := 1, content := "old" } : RawRecord).url)
      [{ url := "u", retrievedAt := 1, content := "old" },
       { url := "u", retrievedAt := 2, content := "new" }]
    = some { url := "u", retrievedAt := 1, content := "old" } :=
  (deduplicate_data_keeps_first
      [{ url := "u", retrievedAt := 1, content := "old" },
       { url := "u", retrievedAt := 2, content := "new" }]).2.2.2
    { url := "u", retrievedAt := 1, content := "old" } (by decide)

/-- C10: `deduplicate_data` silently drops every record whose url key is
missing or empty (`data.get('url', '')` is falsy): no such record ever
appears in the output, even when it shares its url with no other record. -/
theorem deduplicate_data_drops_empty_url (l : List RawRecord) :
    (∀ r ∈ deduplicate_data l, r.url ≠ "")
  ∧ deduplicate_data [{ url := "", retrievedAt := 3, content := "keyless" }] = [] := by
  refine ⟨fun r hr => (mem_dedupDataAux hr).1, by decide⟩

/-- C10 witness: the theorem applied to a surviving record. -/
theorem deduplicate_data_drops_empty_url_witness :
    ({ url := "u", retrievedAt := 0, content := "" } : RawRecord).url ≠ "" :=
  (deduplicate_data_drops_empty_url
      [{ url := "u", retrievedAt := 0, content := "" }]).1
    { url := "u", retrievedAt := 0, content := "" } (by decide)

end DataCleaner

namespace CitationManager

theorem mapExcept_ok_length {f : α → Except ε β} :
    ∀ {l : List α} {out : List β}, mapExcept f l = Except.ok out → out.length = l.length := by
  intro l
  induction l with
  | nil =>
    intro out h
    rw [mapExcept] at h
    cases h
    rfl
  | cons x xs ih =>
    intro out h
    rw [mapExcept] at h
    cases hfx : f x with
    | error e => rw [hfx] at h; cases h
    | ok y =>
      rw [hfx] at h
      cases hm : mapExcept f xs with
      | error e => rw [hm] at h; cases h
      | ok ys =>
        rw [hm] at h
        cases h
        simp [ih hm]

theorem mapExcept_ok_of_forall {f : α → Except ε β} :
    ∀ {l : List α}, (∀ x ∈ l, ∃ y, f x = Except.ok y) →
      ∃ out, mapExcept f l = Except.ok out ∧ out.length = l.length := by
  intro l
  induction l with
  | nil => intro _; exact ⟨[], rfl, rfl⟩
  | cons x xs ih =>
    intro h
    obtain ⟨y, hy⟩ := h x (List.mem_cons_self _ _)
    obtain ⟨ys, hys, hlen⟩ := ih (fun z hz => h z (List.mem_cons_of_mem _ hz))
    refine ⟨y :: ys, ?_, by simp [hlen]⟩
    rw [mapExcept, hy, hys]

theorem format_citation_ok {s : Source} (ht : s.type.isSome)
    (ho : s.organization.isSome) (hy : s.year.isSome) (hti : s.title.isSome) :
    ∃ c, format_citation s = Except.ok c := by
  obtain ⟨t, hts⟩ := Option.isSome_iff_exists.mp ht
  obtain ⟨org, hos⟩ := Option.isSome_iff_exists.mp ho
  obtain ⟨year, hys⟩ := Option.isSome_iff_exists.mp hy
  obtain ⟨title, htis⟩ := Option.isSome_iff_exists.mp hti
  rw [format_citation, hts, hos, hys, htis]
  simp only
  split_ifs <;> exact ⟨_, rfl⟩

/-- C8 counterexample: citation formatting is not total and missing fields
are not always rendered as empty strings — a source whose dict lacks the
`title` key makes `format_citations` raise `KeyError('title')` (modelled as
an error value) instead of returning citations. -/
theorem format_citations_missing_title_raises :
    format_citations
      [{ type := some "website", organization := some "Org", year := some "2024",
         relevance_score := 1 }] 3
      = Except.error "title" := rfl

/-- C8 (amended): `format_citations` returns at most `max_citations`
citation strings whenever it returns at all, and it never raises provided
every selected source carries the required keys `type`, `organization`,
`year` and `title` (the optional keys `journal`, `volume`, `issue`, `pages`,
`url` fall back to empty strings and `author` falls back to the
organization); a missing required key raises a `KeyError`. -/
theorem format_citations_spec (sources : List Source) (n : Nat) :
    (∀ cs, format_citations sources n = Except.ok cs → cs.length ≤ n)
  ∧ ((∀ s ∈ sources.take n,
        s.type.isSome ∧ s.organization.isSome ∧ s.year.isSome ∧ s.title.isSome) →
      ∃ cs, format_citations sources n = Except.ok cs
        ∧ cs.length = min n sources.length) := by
  constructor
  · intro cs h
    rw [format_citations] at h
    rw [mapExcept_ok_length h, List.length_take]
    exact min_le_left _ _
  · intro h
    obtain ⟨out, hout, hlen⟩ := mapExcept_ok_of_forall (fun s hs =>
      format_citation_ok (h s hs).1 (h s hs).2.1 (h s hs).2.2.1 (h s hs).2.2.2)
    refine ⟨out, ?_, by rw [hlen, List.length_take]⟩
    rw [format_citations]
    exact hout

/-- C8 witness: the amended theorem applied to a complete single source and
to the formatted output it yields. -/
theorem format_citations_spec_witness :
    (["Org. (2024). T. Retrieved from "] : List String).length ≤ 3
  ∧ ∃ cs, format_citations [{ type := some "website", organization := some "Org", year := some "2024", title := some "T", relevance_score := 1 }] 3 = Except.ok cs
      ∧ cs.length = min 3 ([{ type := some "website", organization := some "Org", year := some "2024", title := some "T", relevance_score := 1 }] : List Source).length :=
  ⟨(format_citations_spec [{ type := some "website", organization := some "Org", year := some "2024", title := some "T", relevance_score := 1 }] 3).1
      ["Org. (2024). T. Retrieved from "] (by rfl),
   (format_citations_spec [{ type := some "website", organization := some "Org", year := some "2024", title := some "T", relevance_score := 1 }] 3).2 (by decide)⟩

/-- C2 counterexample: for the two-element list repeating one source of
relevance -1 and response length 0, the code returns -0.8 (it counts
sources with multiplicity, not distinctly, and applies no lower clamp),
while the claimed formula gives -0.9; the returned value also lies outside
[0, 1]. -/
theorem calculate_confidence_score_claim_fails :
    (let s : Source := { relevance_score := -1 }
     calculate_confidence_score [s, s] 0 = Rat.divInt (-4) 5
     ∧ claimedConfidence [s, s] 0 = Rat.divInt (-9) 10
     ∧ calculate_confidence_score [s, s] 0 ≠ claimedConfidence [s, s] 0
     ∧ calculate_confidence_score [s, s] 0 < 0) := by
  decide

/-- C2 (amended): the empty-source confidence is exactly 0.3; otherwise the
confidence is the average relevance plus `min(0.1 * len(sources), 0.3)`
(list length with multiplicity, not distinct count) plus
`min(0.1 * responseLength / 1000, 0.2)`, capped above at 1.0; the result is
always ≤ 1, and it is ≥ 0 provided every relevance score is non-negative
and the response length is non-negative. -/
theorem calculate_confidence_score_spec (sources : List Source) (response_length : Int) :
    (sources = [] → calculate_confidence_score sources response_length = 0.3)
  ∧ (sources ≠ [] → calculate_confidence_score sources response_length =
      min ((sources.map (·.relevance_score)).sum / (sources.length : ℚ)
        + min ((sources.length : ℚ) * 0.1) 0.3
        + min ((response_length : ℚ) / 1000 * 0.1) 0.2) 1)
  ∧ calculate_confidence_score sources response_length ≤ 1
  ∧ ((∀ s ∈ sources, 0 ≤ s.relevance_score) → 0 ≤ response_length →
      0 ≤ calculate_confidence_score sources response_length) := by
  refine ⟨?_, ?_, ?_, ?_⟩
  · intro h
    subst h
    rfl
  · intro h
    rw [calculate_confidence_score, if_neg (by simpa using h)]
  · by_cases h : sources.isEmpty
    · rw [calculate_confidence_score, if_pos h]
      norm_num
    · rw [calculate_confidence_score, if_neg h]
      exact min_le_right _ _
  · intro hnn hrl
    by_cases h : sources.isEmpty
    · rw [calculate_confidence_score, if_pos h]
      norm_num
    · rw [calculate_confidence_score, if_neg h]
      have hne : sources ≠ [] := by simpa using h
      have hlen : 0 < (sources.length : ℚ) := by
        exact_mod_cast List.length_pos.mpr hne
      have hsum : 0 ≤ (sources.map (·.relevance_score)).sum := by
        apply List.sum_nonneg
        intro x hx
        obtain ⟨s, hs, rfl⟩ := List.mem_map.mp hx
        exact hnn s hs
      have havg : 0 ≤ (sources.map (·.relevance_score)).sum / (sources.length : ℚ) :=
        div_nonneg hsum hlen.le
      have hb1 : 0 ≤ min ((sources.length : ℚ) * 0.1) 0.3 := by
        refine le_min (mul_nonneg (by positivity) (by norm_num)) (by norm_num)
      have hb2 : 0 ≤ min ((response_length : ℚ) / 1000 * 0.1) 0.2 := by
        have h0 : (0 : ℚ) ≤ (response_length : ℚ) := by exact_mod_cast hrl
        refine le_min (mul_nonneg (div_nonneg h0 (by norm_num)) (by norm_num)) (by norm_num)
      exact le_min (by linarith) (by norm_num)

/-- C2 witness: the amended theorem applied to the empty list and to one
source of relevance 0.5 with response length 100. -/
theorem calculate_confidence_score_spec_witness :
    calculate_confidence_score [] 7 = 0.3
  ∧ calculate_confidence_score [{ relevance_score := 1/2 }] 100 =
      min ((([{ relevance_score := 1/2 }] : List Source).map (·.relevance_score)).sum
          / (([{ relevance_score := 1/2 }] : List Source).length : ℚ)
        + min ((([{ relevance_score := 1/2 }] : List Source).length : ℚ) * 0.1) 0.3
        + min (((100 : Int) : ℚ) / 1000 * 0.1) 0.2) 1
  ∧ calculate_confidence_score [{ relevance_score := 1/2 }] 100 ≤ 1
  ∧ 0 ≤ calculate_confidence_score [{ relevance_score := 1/2 }] 100 :=
  ⟨(calculate_confidence_score_spec [] 7).1 rfl,
   (calculate_confidence_score_spec [{ relevance_score := 1/2 }] 100).2.1 (by decide),
   (calculate_confidence_score_spec [{ relevance_score := 1/2 }] 100).2.2.1,
   (calculate_confidence_score_spec [{ relevance_score := 1/2 }] 100).2.2.2
     (by decide) (by decide)⟩

end CitationManager

namespace EnhancedRAGPipeline

/-- C9: when the optional condition argument is falsy and no condition
keyword occurs in the lower-cased query, `generate_enhanced_response` takes
the topic-not-recognized branch and returns the degraded general response as
a normal value: confidence exactly 0.5 and a single generic templated
citation source. -/
theorem generate_enhanced_response_degraded (blend : String → ResponseDict)
    (query : String) (condition : Option String)
    (h1 : pyFalsyStr condition = true)
    (h2 : ∀ c ∈ conditionKeywords, strContains (pyToLower query) c = false) :
    generate_enhanced_response blend query condition = generate_general_response query
  ∧ (generate_enhanced_response blend query condition).confidence = 0.5
  ∧ (generate_enhanced_response blend query condition).sources
      = ["TrustMed AI General Response"]
  ∧ (generate_enhanced_response blend query condition).sources.length = 1 := by
  have hext : extract_condition_from_query query = none := by
    rw [extract_condition_from_query, List.find?_eq_none]
    intro x hx
    simp [h2 x hx]
  have hmain : generate_enhanced_response blend query condition
      = generate_general_response query := by
    rw [generate_enhanced_response]
    simp only [h1, if_true, hext]
    rfl
  refine ⟨hmain, ?_, ?_, ?_⟩ <;> rw [hmain] <;> rfl

/-- C9 witness: the theorem applied to a query with no recognizable
condition keyword. -/
theorem generate_enhanced_response_degraded_witness :
    (generate_enhanced_response (fun _ => generate_general_response "") "hello there" none).confidence = 0.5
  ∧ (generate_enhanced_response (fun _ => generate_general_response "") "hello there" none).sources.length = 1 :=
  ⟨(generate_enhanced_response_degraded (fun _ => generate_general_response "")
      "hello there" none (by decide) (by decide)).2.1,
   (generate_enhanced_response_degraded (fun _ => generate_general_response "")
      "hello there" none (by decide) (by decide)).2.2.2⟩

end EnhancedRAGPipeline

namespace HybridSearch

/-- C1 witness: the amended no-merge theorem applied to one structured and
one semantic hit sharing a url. -/
theorem combine_results_no_url_merge_witness :
    (combine_results [{ url := "u", retrievedAt := 1, distance := none }] [{ url := "u", retrievedAt := 2, distance := some (Rat.divInt 3 10) }]).countP (fun r => r.url == "u")
      = ([{ url := "u", retrievedAt := 1, distance := none }] : List SearchResult).countP (fun r => r.url == "u")
        + ([{ url := "u", retrievedAt := 2, distance := some (Rat.divInt 3 10) }] : List SearchResult).countP (fun r => r.url == "u") :=
  (combine_results_no_url_merge
      [{ url := "u", retrievedAt := 1, distance := none }]
      [{ url := "u", retrievedAt := 2, distance := some (Rat.divInt 3 10) }] "u").1

/-- C4 witness: the amended ordering theorem applied to two tied structured
hits. -/
theorem combine_results_order_witness :
    List.Pairwise (fun a b => b.relevanceScore ≤ a.relevanceScore)
      (combine_results [{ url := "b", retrievedAt := 1, distance := none }, { url := "a", retrievedAt := 2, distance := none }] []) :=
  (combine_results_order
      [{ url := "b", retrievedAt := 1, distance := none },
       { url := "a", retrievedAt := 2, distance := none }] []).1

end HybridSearch

namespace MedicalDatabase

/-- C3 witness: the idempotence theorem applied to an empty table and one
concrete record. -/
theorem add_entry_idempotent_by_url_witness :
    (add_entry (add_entry {} { url := "https://example.com/diabetes" }).1 { url := "https://example.com/diabetes" }).1.rows.countP
      (fun r => r.data.url == ({ url := "https://example.com/diabetes" } : EntryData).url) = 1 :=
  (add_entry_idempotent_by_url {} { url := "https://example.com/diabetes" }).2.1

end MedicalDatabase
